import Mathlib

/-!
Verification of the `spegel.llm` module: a thin abstraction over two LLM
streaming back-ends (Gemini and Mistral), a backend selection helper reading
environment variables, and an optional process-wide interaction logger.

The Python source is shallowly embedded: each adapter's `stream` coroutine
becomes a pure function from the list of incoming vendor chunks to the list
of yielded text fragments, the accumulated fragments, and the sequence of
logger calls it makes.  Python string truthiness (`if content:`) becomes a
test against the empty string; a chunk whose field access raises becomes a
`malformed` constructor; `os.getenv` results become `Option String`.
-/

namespace Spegel

/-! ## Logger model (`logging` levels, `spegel.llm` logger state) -/

/-- Python `logging.INFO`. -/
def INFO : Nat := 20

/-- Python `logging.CRITICAL`. -/
def CRITICAL : Nat := 50

/-- State of the process-wide `spegel.llm` logger: its level threshold and
the number of attached handlers. -/
structure LoggerState where
  level : Nat
  handlers : Nat
deriving Repr, DecidableEq

/-- Module-load state: `logger.setLevel(logging.CRITICAL + 1)`, no handlers
attached.  Effectively disabled by default. -/
def initialLogger : LoggerState := { level := CRITICAL + 1, handlers := 0 }

/-- `enable_llm_logging(level)`: sets the logger level and, only when the
logger has no handlers yet, attaches one `StreamHandler`. -/
def enable_llm_logging (lvl : Nat) (st : LoggerState) : LoggerState :=
  { level := lvl
    handlers := if st.handlers = 0 then st.handlers + 1 else st.handlers }

/-- Run `enable_llm_logging` once per level in the list, left to right. -/
def run_enables : List Nat → LoggerState → LoggerState
  | [], st => st
  | l :: ls, st => run_enables ls (enable_llm_logging l st)

/-- The distinct `logger.info` calls the module makes.  `prompt s` is
`"LLM Prompt: %s"` with `s` the composed content, `response s` is
`"LLM Response: %s"` with `s` the joined collected text, `dataHasRun` is
the Mistral adapter's `"LLM data has run"` message. -/
inductive LogEvent where
  | prompt (text : String)
  | response (text : String)
  | dataHasRun
deriving Repr, DecidableEq

/-- Whether a `logger.info` call on this logger produces visible output:
the INFO level must pass the threshold and a handler must be attached
(with no handler, CPython's last-resort handler drops records below
WARNING, so INFO records produce nothing). -/
def emitsInfo (st : LoggerState) : Bool :=
  decide (st.level ≤ INFO) && decide (1 ≤ st.handlers)

/-- The log lines actually written for a list of `logger.info` calls. -/
def loggedOutput (st : LoggerState) (calls : List LogEvent) : List LogEvent :=
  if emitsInfo st then calls else []

/-- Recognize an "LLM Prompt" line. -/
def isPromptEvent : LogEvent → Bool
  | LogEvent.prompt _ => true
  | _ => false

/-- Recognize an "LLM Response" line. -/
def isResponseEvent : LogEvent → Bool
  | LogEvent.response _ => true
  | _ => false

/-- Recognize an "LLM data has run" line. -/
def isDataRunEvent : LogEvent → Bool
  | LogEvent.dataHasRun => true
  | _ => false

/-- Payloads of the "LLM Response" lines among a list of calls. -/
def responsePayloads (calls : List LogEvent) : List String :=
  calls.filterMap fun e =>
    match e with
    | LogEvent.response s => some s
    | _ => none

/-! ## Generation configuration and request composition -/

/-- The default generation configuration built by the Gemini adapter
(temperature 0.2 is kept as tenths to stay in exact arithmetic). -/
structure GenerationConfig where
  temperature_tenths : Nat
  max_output_tokens : Nat
  response_mime_type : String
  thinking_budget : Nat
deriving Repr, DecidableEq

/-- `types.GenerateContentConfig(temperature=0.2, max_output_tokens=8192,
response_mime_type="text/plain", thinking_config=ThinkingConfig(thinking_budget=0))`. -/
def defaultGenerationConfig : GenerationConfig :=
  { temperature_tenths := 2
    max_output_tokens := 8192
    response_mime_type := "text/plain"
    thinking_budget := 0 }

/-- `user_content = f"{prompt}\n\n{content}" if content else prompt`:
Python string truthiness is non-emptiness. -/
def composeUserContent (prompt content : String) : String :=
  if content = "" then prompt else prompt ++ "\n\n" ++ content

/-! ## Gemini adapter -/

/-- A chunk of the Gemini stream as seen by the extraction expression
`chunk.candidates[0].content.parts[0].text`: either some field access
raises (`malformed`), or the access succeeds and the `text` field holds
`None` or a string. -/
inductive GChunk where
  | malformed
  | wellFormed (text : Option String)
deriving Repr, DecidableEq

/-- Outcome of evaluating the extraction expression on one chunk:
`Except.error ()` models the raised exception caught by the adapter. -/
def gRawExtract : GChunk → Except Unit (Option String)
  | GChunk.malformed => Except.error ()
  | GChunk.wellFormed t => Except.ok t

/-- The fragment a Gemini chunk contributes, if any: extraction must
succeed and the text must be truthy (non-`None`, non-empty). -/
def gFragment : GChunk → Option String
  | GChunk.wellFormed (some t) => if t = "" then none else some t
  | _ => none

/-- The `async for` loop body of `GeminiClient.stream`, folded over the
incoming chunks.  Returns (final `collected` list, fragments yielded in
order).  A raised extraction (`error`) hits `except: continue`; a `None`
or empty text fails `if text:`; otherwise the fragment is appended to
`collected` and yielded at once. -/
def geminiStreamLoop (collected : List String) : List GChunk → List String × List String
  | [] => (collected, [])
  | c :: cs =>
    match gRawExtract c with
    | Except.error _ => geminiStreamLoop collected cs
    | Except.ok none => geminiStreamLoop collected cs
    | Except.ok (some t) =>
      if t = "" then geminiStreamLoop collected cs
      else
        let rest := geminiStreamLoop (collected ++ [t]) cs
        (rest.1, t :: rest.2)

/-- The request `GeminiClient.stream` submits to
`generate_content_stream`: model name, composed contents, and the
supplied or default configuration. -/
structure GeminiRequest where
  model : String
  contents : String
  config : GenerationConfig
deriving Repr, DecidableEq

/-- Default model id of `GeminiClient.__init__`. -/
def geminiDefaultModel : String := "gemini-2.5-flash-lite-preview-06-17"

/-- Request composition step of `GeminiClient.stream`. -/
def GeminiClient.request (model_name prompt content : String)
    (generation_config : Option GenerationConfig) : GeminiRequest :=
  { model := model_name
    contents := composeUserContent prompt content
    config := generation_config.getD defaultGenerationConfig }

/-- Result of one `stream` call: the fragments yielded to the caller in
order, the `collected` accumulator at end of stream, and the `logger.info`
calls made, in order. -/
structure StreamResult where
  yields : List String
  collected : List String
  logs : List LogEvent
deriving Repr, DecidableEq

/-- `GeminiClient.stream`: compose the user content, log it under
"LLM Prompt", run the chunk loop, and if anything was collected log the
concatenation under "LLM Response". -/
def GeminiClient.stream (prompt content : String)
    (generation_config : Option GenerationConfig)
    (chunks : List GChunk) : StreamResult :=
  let _config := generation_config.getD defaultGenerationConfig
  let user_content := composeUserContent prompt content
  let r := geminiStreamLoop [] chunks
  { yields := r.2
    collected := r.1
    logs := [LogEvent.prompt user_content] ++
      (if r.1 = [] then [] else [LogEvent.response (String.join r.1)]) }

/-! ## Mistral adapter -/

/-- A chunk of the Mistral stream as seen by
`chunk.data.choices[0].delta.content`: either an access raises
(`malformed`), or the `content` field holds `None` or a string. -/
inductive MChunk where
  | malformed
  | wellFormed (content : Option String)
deriving Repr, DecidableEq

/-- Outcome of evaluating the Mistral extraction expression on one chunk. -/
def mRawExtract : MChunk → Except Unit (Option String)
  | MChunk.malformed => Except.error ()
  | MChunk.wellFormed c => Except.ok c

/-- The `async for` loop body of `MistralClient.stream`, folded over the
chunks.  A raised extraction hits `except: continue`; a `None` content
takes the `else` branch (whose `print` raises a NameError on the undefined
`event`, also caught by the `except`); any string content, empty included,
is appended to `collected` and yielded. -/
def mistralStreamLoop (collected : List String) : List MChunk → List String × List String
  | [] => (collected, [])
  | c :: cs =>
    match mRawExtract c with
    | Except.error _ => mistralStreamLoop collected cs
    | Except.ok none => mistralStreamLoop collected cs
    | Except.ok (some t) =>
      let rest := mistralStreamLoop (collected ++ [t]) cs
      (rest.1, t :: rest.2)

/-- The request `MistralClient.stream` submits to `chat.stream_async`:
the model id is hardcoded, the composed content goes into the single user
message, and `stream=True` is passed. -/
structure MistralRequest where
  model : String
  messageContent : String
  streamFlag : Bool
deriving Repr, DecidableEq

/-- Request composition step of `MistralClient.stream`.  The
`generation_config` parameter is accepted but never read by the body. -/
def MistralClient.request (prompt content : String)
    (generation_config : Option GenerationConfig) : MistralRequest :=
  let _ := generation_config
  { model := "mistral-medium-latest"
    messageContent := composeUserContent prompt content
    streamFlag := true }

/-- `MistralClient.stream`: compose the user content, log
"LLM data has run", run the chunk loop, log the concatenation under
"LLM Response" if anything was collected, then yield the full joined
response once more as the final fragment. -/
def MistralClient.stream (prompt content : String)
    (generation_config : Option GenerationConfig)
    (chunks : List MChunk) : StreamResult :=
  let _ := generation_config
  let _user_content := composeUserContent prompt content
  let r := mistralStreamLoop [] chunks
  { yields := r.2 ++ [String.join r.1]
    collected := r.1
    logs := [LogEvent.dataHasRun] ++
      (if r.1 = [] then [] else [LogEvent.response (String.join r.1)]) }

/-! ## Backend selection helper -/

/-- The environment as `get_default_client` reads it: the two
`os.getenv` results and whether the `google.genai` import at module load
succeeded (`genai is not None`). -/
structure Env where
  gemini_api_key : Option String
  mistral_api_key : Option String
  genai_importable : Bool
deriving Repr, DecidableEq

/-- The two client classes `get_default_client` can instantiate. -/
inductive Client where
  | gemini (api_key : String) (model_name : String)
  | mistral (api_key : String)
deriving Repr, DecidableEq

/-- Python truthiness of an `os.getenv` result: `None` and the empty
string are falsy. -/
def truthy : Option String → Bool
  | none => false
  | some s => decide (s ≠ "")

/-- `get_default_client()`: prefer Gemini when its key is truthy and the
library imported, else Mistral when its key is truthy, else `(None, False)`. -/
def get_default_client (env : Env) : Option Client × Bool :=
  if truthy env.gemini_api_key && env.genai_importable then
    (some (Client.gemini (env.gemini_api_key.getD "") geminiDefaultModel), true)
  else if truthy env.mistral_api_key then
    (some (Client.mistral (env.mistral_api_key.getD "")), true)
  else
    (none, false)

/-! ## Helper lemmas about the stream loops -/

/-- The final `collected` accumulator of the Gemini loop is the starting
accumulator followed by the yielded fragments. -/
theorem geminiStreamLoop_fst (cs : List GChunk) :
    ∀ acc : List String, (geminiStreamLoop acc cs).1 = acc ++ (geminiStreamLoop acc cs).2 := by
  induction cs with
  | nil => intro acc; simp [geminiStreamLoop]
  | cons c cs ih =>
    intro acc
    cases c with
    | malformed => simpa [geminiStreamLoop, gRawExtract] using ih acc
    | wellFormed t =>
      cases t with
      | none => simpa [geminiStreamLoop, gRawExtract] using ih acc
      | some s =>
        by_cases hs : s = ""
        · simpa [geminiStreamLoop, gRawExtract, hs] using ih acc
        · simp only [geminiStreamLoop, gRawExtract, if_neg hs]
          rw [ih (acc ++ [s])]
          simp

/-- The fragments the Gemini loop yields do not depend on the starting
accumulator: they are exactly the truthy extractions, in order. -/
theorem geminiStreamLoop_snd (cs : List GChunk) :
    ∀ acc : List String, (geminiStreamLoop acc cs).2 = cs.filterMap gFragment := by
  induction cs with
  | nil => intro acc; simp [geminiStreamLoop]
  | cons c cs ih =>
    intro acc
    cases c with
    | malformed => simpa [geminiStreamLoop, gRawExtract, gFragment] using ih acc
    | wellFormed t =>
      cases t with
      | none => simpa [geminiStreamLoop, gRawExtract, gFragment] using ih acc
      | some s =>
        by_cases hs : s = ""
        · simpa [geminiStreamLoop, gRawExtract, gFragment, hs] using ih acc
        · simp [geminiStreamLoop, gRawExtract, gFragment, hs, ih]

/-- The final `collected` accumulator of the Mistral loop is the starting
accumulator followed by the incrementally yielded fragments. -/
theorem mistralStreamLoop_fst (cs : List MChunk) :
    ∀ acc : List String, (mistralStreamLoop acc cs).1 = acc ++ (mistralStreamLoop acc cs).2 := by
  induction cs with
  | nil => intro acc; simp [mistralStreamLoop]
  | cons c cs ih =>
    intro acc
    cases c with
    | malformed => simpa [mistralStreamLoop, mRawExtract] using ih acc
    | wellFormed t =>
      cases t with
      | none => simpa [mistralStreamLoop, mRawExtract] using ih acc
      | some s =>
        simp only [mistralStreamLoop, mRawExtract]
        rw [ih (acc ++ [s])]
        simp

/-- The fragment a Mistral chunk contributes incrementally, if any:
extraction must succeed with a non-`None` content (empty strings pass). -/
def mFragment : MChunk → Option String
  | MChunk.wellFormed (some t) => some t
  | _ => none

/-- The fragments the Mistral loop yields do not depend on the starting
accumulator: they are exactly the non-`None` extractions, in order. -/
theorem mistralStreamLoop_snd (cs : List MChunk) :
    ∀ acc : List String, (mistralStreamLoop acc cs).2 = cs.filterMap mFragment := by
  induction cs with
  | nil => intro acc; simp [mistralStreamLoop]
  | cons c cs ih =>
    intro acc
    cases c with
    | malformed => simpa [mistralStreamLoop, mRawExtract, mFragment] using ih acc
    | wellFormed t =>
      cases t with
      | none => simpa [mistralStreamLoop, mRawExtract, mFragment] using ih acc
      | some s => simp [mistralStreamLoop, mRawExtract, mFragment, ih]

/-- Prepending the handlers-preserving `enable_llm_logging` keeps a single
attached handler: once the logger has exactly one handler, further enables
never attach another. -/
theorem run_enables_handlers_one (ls : List Nat) :
    ∀ st : LoggerState, st.handlers = 1 → (run_enables ls st).handlers = 1 := by
  induction ls with
  | nil => intro st h; simpa [run_enables] using h
  | cons l ls ih =>
    intro st h
    simp only [run_enables]
    apply ih
    simp [enable_llm_logging, h]

/-! ## Claim theorems -/

/-- Claim C2: for every non-empty prompt P, both adapters compose the
submitted request as exactly P when content is empty, and as
P ++ "\n\n" ++ C when the content C is non-empty. -/
theorem c2_request_composition (m P C : String)
    (cfgG cfgM : Option GenerationConfig) (hP : P ≠ "") :
    (GeminiClient.request m P C cfgG).contents
        = (if C = "" then P else P ++ "\n\n" ++ C)
    ∧ (MistralClient.request P C cfgM).messageContent
        = (if C = "" then P else P ++ "\n\n" ++ C) :=
  ⟨rfl, rfl⟩

/-- Witness for C2 at prompt "hi", content "there". -/
theorem c2_request_composition_witness :
    ("hi" : String) ≠ "" ∧
      ((GeminiClient.request "m" "hi" "there" none).contents
          = (if ("there" : String) = "" then "hi" else "hi" ++ "\n\n" ++ "there")
        ∧ (MistralClient.request "hi" "there" none).messageContent
          = (if ("there" : String) = "" then "hi" else "hi" ++ "\n\n" ++ "there")) :=
  ⟨by decide, c2_request_composition "m" "hi" "there" none none (by decide)⟩

/-- Claim C3: on every Mistral stream call, after the incremental chunks
are exhausted the adapter yields exactly one extra final fragment whose
value is the concatenation of all previously yielded fragments. -/
theorem c3_mistral_trailing_fragment (P C : String)
    (cfg : Option GenerationConfig) (mcs : List MChunk) :
    (MistralClient.stream P C cfg mcs).yields
      = (mistralStreamLoop [] mcs).2 ++ [String.join ((mistralStreamLoop [] mcs).2)] := by
  show (mistralStreamLoop [] mcs).2 ++ [String.join ((mistralStreamLoop [] mcs).1)]
      = (mistralStreamLoop [] mcs).2 ++ [String.join ((mistralStreamLoop [] mcs).2)]
  rw [mistralStreamLoop_fst]
  simp

/-- Claim C9: the Mistral adapter ignores its generation_config argument:
the submitted request and the whole stream result are identical across any
two configurations, and the model id is hardcoded. -/
theorem c9_mistral_config_independent (P C : String)
    (cfg1 cfg2 : Option GenerationConfig) (mcs : List MChunk) :
    MistralClient.request P C cfg1 = MistralClient.request P C cfg2
    ∧ MistralClient.stream P C cfg1 mcs = MistralClient.stream P C cfg2 mcs
    ∧ (MistralClient.request P C cfg1).model = "mistral-medium-latest" :=
  ⟨rfl, rfl, rfl⟩

/-- Claim C10: the selection helper's availability flag is true exactly
when the returned client is present. -/
theorem c10_flag_iff_client (env : Env) :
    (get_default_client env).2 = true ↔ (get_default_client env).1.isSome = true := by
  unfold get_default_client
  split
  · simp
  · split <;> simp

/-- Claim C8: starting from the module-load logger state, any non-empty
sequence of `enable_llm_logging` calls (at any levels) leaves exactly one
attached handler. -/
theorem c8_enable_idempotent_handlers (ls : List Nat) (h : ls ≠ []) :
    (run_enables ls initialLogger).handlers = 1 := by
  cases ls with
  | nil => exact absurd rfl h
  | cons l ls =>
    simp only [run_enables]
    apply run_enables_handlers_one
    simp [enable_llm_logging, initialLogger]

/-- Witness for C8 with three enable calls at distinct levels. -/
theorem c8_enable_idempotent_handlers_witness :
    ([20, 10, 30] : List Nat) ≠ []
    ∧ (run_enables [20, 10, 30] initialLogger).handlers = 1 :=
  ⟨by decide, c8_enable_idempotent_handlers [20, 10, 30] (by decide)⟩

/-- Removing a malformed chunk anywhere in the input leaves the Gemini
loop's result unchanged: the exception path is skip-and-continue. -/
theorem geminiStreamLoop_skip_malformed (xs ys : List GChunk) :
    ∀ acc : List String,
      geminiStreamLoop acc (xs ++ GChunk.malformed :: ys)
        = geminiStreamLoop acc (xs ++ ys) := by
  induction xs with
  | nil => intro acc; simp [geminiStreamLoop, gRawExtract]
  | cons c xs ih =>
    intro acc
    cases c with
    | malformed => simp [geminiStreamLoop, gRawExtract, ih]
    | wellFormed t =>
      cases t with
      | none => simp [geminiStreamLoop, gRawExtract, ih]
      | some s =>
        by_cases hs : s = "" <;> simp [geminiStreamLoop, gRawExtract, hs, ih]

/-- Removing a malformed chunk anywhere in the input leaves the Mistral
loop's result unchanged. -/
theorem mistralStreamLoop_skip_malformed (xs ys : List MChunk) :
    ∀ acc : List String,
      mistralStreamLoop acc (xs ++ MChunk.malformed :: ys)
        = mistralStreamLoop acc (xs ++ ys) := by
  induction xs with
  | nil => intro acc; simp [mistralStreamLoop, mRawExtract]
  | cons c xs ih =>
    intro acc
    cases c with
    | malformed => simp [mistralStreamLoop, mRawExtract, ih]
    | wellFormed t =>
      cases t with
      | none => simp [mistralStreamLoop, mRawExtract, ih]
      | some s => simp [mistralStreamLoop, mRawExtract, ih]

/-- Claim C7: the Gemini adapter yields every successfully extracted
fragment immediately and accumulates exactly the yielded fragments: the
yields over a prefix are already complete before later chunks arrive
(nothing is withheld or buffered), the yields are exactly the successful
extractions in order, and the accumulator equals the yield list. -/
theorem c7_gemini_immediate_delivery (P C : String)
    (cfg : Option GenerationConfig) (xs ys : List GChunk) :
    (GeminiClient.stream P C cfg (xs ++ ys)).yields
        = (GeminiClient.stream P C cfg xs).yields
          ++ (GeminiClient.stream P C cfg ys).yields
    ∧ (GeminiClient.stream P C cfg xs).yields = xs.filterMap gFragment
    ∧ (GeminiClient.stream P C cfg xs).collected
        = (GeminiClient.stream P C cfg xs).yields := by
  refine ⟨?_, ?_, ?_⟩
  · show (geminiStreamLoop [] (xs ++ ys)).2
        = (geminiStreamLoop [] xs).2 ++ (geminiStreamLoop [] ys).2
    simp [geminiStreamLoop_snd]
  · show (geminiStreamLoop [] xs).2 = xs.filterMap gFragment
    simp [geminiStreamLoop_snd]
  · show (geminiStreamLoop [] xs).1 = (geminiStreamLoop [] xs).2
    rw [geminiStreamLoop_fst]
    simp

/-- Claim C1: for either adapter, the payload of the "LLM Response" log
line is exactly the concatenation, in yield order, of the fragments the
adapter accumulated (for Mistral, of the incremental yields, i.e. the
yields modulo the trailing full-response quirk). -/
theorem c1_logged_response_eq_concat (P C : String)
    (cfg : Option GenerationConfig) (gcs : List GChunk) (mcs : List MChunk)
    (hg : (GeminiClient.stream P C cfg gcs).collected ≠ [])
    (hm : (MistralClient.stream P C cfg mcs).collected ≠ []) :
    responsePayloads (GeminiClient.stream P C cfg gcs).logs
        = [String.join (GeminiClient.stream P C cfg gcs).yields]
    ∧ responsePayloads (MistralClient.stream P C cfg mcs).logs
        = [String.join ((mistralStreamLoop [] mcs).2)] := by
  constructor
  · have hg' : (geminiStreamLoop [] gcs).1 ≠ [] := hg
    show responsePayloads
        ([LogEvent.prompt (composeUserContent P C)] ++
          (if (geminiStreamLoop [] gcs).1 = [] then []
           else [LogEvent.response (String.join ((geminiStreamLoop [] gcs).1))]))
      = [String.join ((geminiStreamLoop [] gcs).2)]
    rw [if_neg hg']
    have h2 := geminiStreamLoop_fst gcs []
    simp only [List.nil_append] at h2
    simp [responsePayloads, h2]
  · have hm' : (mistralStreamLoop [] mcs).1 ≠ [] := hm
    show responsePayloads
        ([LogEvent.dataHasRun] ++
          (if (mistralStreamLoop [] mcs).1 = [] then []
           else [LogEvent.response (String.join ((mistralStreamLoop [] mcs).1))]))
      = [String.join ((mistralStreamLoop [] mcs).2)]
    rw [if_neg hm']
    have h2 := mistralStreamLoop_fst mcs []
    simp only [List.nil_append] at h2
    simp [responsePayloads, h2]

/-- Witness for C1 on one-chunk streams. -/
theorem c1_logged_response_eq_concat_witness :
    ((GeminiClient.stream "p" "c" none [GChunk.wellFormed (some "a")]).collected ≠ []
     ∧ (MistralClient.stream "p" "c" none [MChunk.wellFormed (some "b")]).collected ≠ [])
    ∧ (responsePayloads
          (GeminiClient.stream "p" "c" none [GChunk.wellFormed (some "a")]).logs
        = [String.join (GeminiClient.stream "p" "c" none [GChunk.wellFormed (some "a")]).yields]
       ∧ responsePayloads
          (MistralClient.stream "p" "c" none [MChunk.wellFormed (some "b")]).logs
        = [String.join ((mistralStreamLoop [] [MChunk.wellFormed (some "b")]).2)]) :=
  ⟨⟨by decide, by decide⟩,
    c1_logged_response_eq_concat "p" "c" none
      [GChunk.wellFormed (some "a")] [MChunk.wellFormed (some "b")]
      (by decide) (by decide)⟩

/-- Claim C5: a malformed chunk between two well-formed chunks is skipped:
both adapters still deliver the two well-formed fragments in order (for
Mistral these are the incremental yields, accumulated in `collected`), and
in general a per-chunk extraction failure never changes or terminates the
rest of the stream. -/
theorem c5_malformed_chunk_skipped (a b : String) (ha : a ≠ "") (hb : b ≠ "")
    (P C : String) (cfg : Option GenerationConfig) :
    (GeminiClient.stream P C cfg
        [GChunk.wellFormed (some a), GChunk.malformed, GChunk.wellFormed (some b)]).yields
      = [a, b]
    ∧ (MistralClient.stream P C cfg
        [MChunk.wellFormed (some a), MChunk.malformed, MChunk.wellFormed (some b)]).collected
      = [a, b]
    ∧ (∀ (xs ys : List GChunk) (acc : List String),
        geminiStreamLoop acc (xs ++ GChunk.malformed :: ys)
          = geminiStreamLoop acc (xs ++ ys))
    ∧ (∀ (xs ys : List MChunk) (acc : List String),
        mistralStreamLoop acc (xs ++ MChunk.malformed :: ys)
          = mistralStreamLoop acc (xs ++ ys)) := by
  refine ⟨?_, ?_, ?_, ?_⟩
  · show (geminiStreamLoop []
        [GChunk.wellFormed (some a), GChunk.malformed, GChunk.wellFormed (some b)]).2
      = [a, b]
    simp [geminiStreamLoop_snd, gFragment, ha, hb]
  · show (mistralStreamLoop []
        [MChunk.wellFormed (some a), MChunk.malformed, MChunk.wellFormed (some b)]).1
      = [a, b]
    rw [mistralStreamLoop_fst]
    simp [mistralStreamLoop_snd, mFragment]
  · intro xs ys acc; exact geminiStreamLoop_skip_malformed xs ys acc
  · intro xs ys acc; exact mistralStreamLoop_skip_malformed xs ys acc

/-- Witness for C5 at the spec's example fragments "Hel" and "lo". -/
theorem c5_malformed_chunk_skipped_witness :
    (("Hel" : String) ≠ "" ∧ ("lo" : String) ≠ "")
    ∧ (GeminiClient.stream "p" "c" none
        [GChunk.wellFormed (some "Hel"), GChunk.malformed,
         GChunk.wellFormed (some "lo")]).yields = ["Hel", "lo"] :=
  ⟨⟨by decide, by decide⟩,
    (c5_malformed_chunk_skipped "Hel" "lo" (by decide) (by decide) "p" "c" none).1⟩

/-- An environment whose GEMINI_API_KEY is set but empty: `os.getenv`
returns the empty string, which is falsy in Python. -/
def envEmptyGeminiKey : Env :=
  { gemini_api_key := some ""
    mistral_api_key := none
    genai_importable := true }

/-- Counterexample to C4 as stated: with GEMINI_API_KEY set (to the empty
string) and the library importable, the helper does not return a Gemini
client and true; it returns (none, false). -/
theorem c4_counterexample_empty_key :
    envEmptyGeminiKey.gemini_api_key.isSome = true
    ∧ envEmptyGeminiKey.genai_importable = true
    ∧ get_default_client envEmptyGeminiKey = (none, false) := by
  decide

/-- Claim C4 (amended): the helper follows the selection order with "set"
read as "set to a non-empty string" (Python truthiness): a truthy Gemini
key with the library importable yields the Gemini client and true; else a
truthy Mistral key yields the Mistral client and true; else (none, false). -/
theorem c4_selection_policy (env : Env) :
    (truthy env.gemini_api_key = true → env.genai_importable = true →
      get_default_client env
        = (some (Client.gemini (env.gemini_api_key.getD "") geminiDefaultModel), true))
    ∧ ((truthy env.gemini_api_key = false ∨ env.genai_importable = false) →
        truthy env.mistral_api_key = true →
        get_default_client env
          = (some (Client.mistral (env.mistral_api_key.getD "")), true))
    ∧ ((truthy env.gemini_api_key = false ∨ env.genai_importable = false) →
        truthy env.mistral_api_key = false →
        get_default_client env = (none, false)) := by
  refine ⟨?_, ?_, ?_⟩
  · intro h1 h2
    simp [get_default_client, h1, h2]
  · intro h1 h2
    rcases h1 with h1 | h1 <;> simp [get_default_client, h1, h2]
  · intro h1 h2
    rcases h1 with h1 | h1 <;> simp [get_default_client, h1, h2]

/-- Witness for C4 (amended): only MISTRAL_API_KEY set, to "mk". -/
theorem c4_selection_policy_witness :
    get_default_client
        { gemini_api_key := none, mistral_api_key := some "mk", genai_importable := true }
      = (some (Client.mistral "mk"), true) :=
  (c4_selection_policy
      { gemini_api_key := none, mistral_api_key := some "mk", genai_importable := true }).2.1
    (Or.inl (by decide)) (by decide)

/-- Enabling logging at INFO always produces a logger whose `info` calls
are emitted: the threshold is lowered to INFO and at least one handler is
attached. -/
theorem emitsInfo_enable (st : LoggerState) :
    emitsInfo (enable_llm_logging INFO st) = true := by
  unfold emitsInfo enable_llm_logging INFO
  by_cases h : st.handlers = 0 <;> simp [h] <;> omega

/-- The module-load logger emits nothing at INFO. -/
theorem emitsInfo_initial : emitsInfo initialLogger = false := by decide

/-- Counterexample to C6 as stated: on a Mistral stream call with logging
enabled, the number of "LLM Prompt" events emitted is 0, not 1 (the
Mistral adapter logs "LLM data has run" instead of the composed prompt). -/
theorem c6_counterexample_mistral_no_prompt :
    emitsInfo (enable_llm_logging INFO initialLogger) = true
    ∧ (loggedOutput (enable_llm_logging INFO initialLogger)
        (MistralClient.stream "p" "" none [MChunk.wellFormed (some "hi")]).logs).countP
          isPromptEvent = 0 := by
  decide

/-- Claim C6 (amended): with logging not enabled neither adapter produces
log output, on any call.  With logging enabled, on any call the Gemini
adapter emits exactly one "LLM Prompt" event carrying the full composed
content while the Mistral adapter emits no "LLM Prompt" event but exactly
one "LLM data has run" event; either adapter emits exactly one
"LLM Response" event when at least one fragment was produced and none
otherwise. -/
theorem c6_logging_events (P C : String) (cfg : Option GenerationConfig)
    (gcs : List GChunk) (mcs : List MChunk) (st : LoggerState) :
    (loggedOutput initialLogger (GeminiClient.stream P C cfg gcs).logs = []
     ∧ loggedOutput initialLogger (MistralClient.stream P C cfg mcs).logs = [])
    ∧ ((loggedOutput (enable_llm_logging INFO st)
          (GeminiClient.stream P C cfg gcs).logs).countP isPromptEvent = 1
       ∧ LogEvent.prompt (composeUserContent P C)
           ∈ loggedOutput (enable_llm_logging INFO st)
               (GeminiClient.stream P C cfg gcs).logs
       ∧ (loggedOutput (enable_llm_logging INFO st)
            (GeminiClient.stream P C cfg gcs).logs).countP isResponseEvent
          = (if (GeminiClient.stream P C cfg gcs).collected = [] then 0 else 1))
    ∧ ((loggedOutput (enable_llm_logging INFO st)
          (MistralClient.stream P C cfg mcs).logs).countP isPromptEvent = 0
       ∧ (loggedOutput (enable_llm_logging INFO st)
            (MistralClient.stream P C cfg mcs).logs).countP isDataRunEvent = 1
       ∧ (loggedOutput (enable_llm_logging INFO st)
            (MistralClient.stream P C cfg mcs).logs).countP isResponseEvent
          = (if (MistralClient.stream P C cfg mcs).collected = [] then 0 else 1)) := by
  have hgc : (GeminiClient.stream P C cfg gcs).collected
      = (geminiStreamLoop [] gcs).1 := rfl
  have hmc : (MistralClient.stream P C cfg mcs).collected
      = (mistralStreamLoop [] mcs).1 := rfl
  have hglogs : (GeminiClient.stream P C cfg gcs).logs
      = [LogEvent.prompt (composeUserContent P C)] ++
        (if (geminiStreamLoop [] gcs).1 = [] then []
         else [LogEvent.response (String.join ((geminiStreamLoop [] gcs).1))]) := rfl
  have hmlogs : (MistralClient.stream P C cfg mcs).logs
      = [LogEvent.dataHasRun] ++
        (if (mistralStreamLoop [] mcs).1 = [] then []
         else [LogEvent.response (String.join ((mistralStreamLoop [] mcs).1))]) := rfl
  refine ⟨⟨?_, ?_⟩, ⟨?_, ?_, ?_⟩, ⟨?_, ?_, ?_⟩⟩
  · simp [loggedOutput, emitsInfo_initial]
  · simp [loggedOutput, emitsInfo_initial]
  · rw [hglogs]
    by_cases h : (geminiStreamLoop [] gcs).1 = [] <;>
      simp [loggedOutput, emitsInfo_enable, h, isPromptEvent, isResponseEvent]
  · rw [hglogs]
    by_cases h : (geminiStreamLoop [] gcs).1 = [] <;>
      simp [loggedOutput, emitsInfo_enable, h]
  · rw [hglogs, hgc]
    by_cases h : (geminiStreamLoop [] gcs).1 = [] <;>
      simp [loggedOutput, emitsInfo_enable, h, isPromptEvent, isResponseEvent]
  · rw [hmlogs]
    by_cases h : (mistralStreamLoop [] mcs).1 = [] <;>
      simp [loggedOutput, emitsInfo_enable, h, isPromptEvent, isDataRunEvent]
  · rw [hmlogs]
    by_cases h : (mistralStreamLoop [] mcs).1 = [] <;>
      simp [loggedOutput, emitsInfo_enable, h, isDataRunEvent]
  · rw [hmlogs, hmc]
    by_cases h : (mistralStreamLoop [] mcs).1 = [] <;>
      simp [loggedOutput, emitsInfo_enable, h, isResponseEvent]

end Spegel
